import Mathlib

/-!
# Verification of the bunric runtime client core

Shallow embedding of the parts of the bunric source that the spec's claims
are about, together with theorems settling each claim.

Byte strings are modelled as lists of naturals (one element per byte /
UTF-16 code unit of the source's strings; all string constants involved are
ASCII, where the two coincide).
-/

namespace Bunric

/-- Convert an ASCII Lean string literal to its byte-list model. -/
def strB (s : String) : List Nat := s.data.map Char.toNat

/-! ## JSON serialization (model of JSON.stringify as used by the runtime)

`createHttpResponseStream` (src/src/pkg/types/awslambda.d.ts) serializes the
prelude with JSON.stringify; `AwsWritableStream.error` (src/unnamed/part_008)
serializes the error payload the same way.  The model reproduces
JSON.stringify's string escaping: quote and backslash are escaped, control
characters below 0x20 are escaped to two-character or \u00XX escapes, all
other code units pass through unchanged. -/

/-- Lowercase hexadecimal digit character code for a value below 16. -/
def hexDigit (n : Nat) : Nat := if n < 10 then 0x30 + n else 0x57 + n

/-- JSON.stringify escaping for one code unit inside a string literal. -/
def escJsonChar (c : Nat) : List Nat :=
  if c = 0x22 then [0x5C, 0x22]
  else if c = 0x5C then [0x5C, 0x5C]
  else if c = 0x08 then [0x5C, 0x62]
  else if c = 0x09 then [0x5C, 0x74]
  else if c = 0x0A then [0x5C, 0x6E]
  else if c = 0x0C then [0x5C, 0x66]
  else if c = 0x0D then [0x5C, 0x72]
  else if c < 0x20 then [0x5C, 0x75, 0x30, 0x30, hexDigit (c / 16), hexDigit (c % 16)]
  else [c]

/-- JSON string literal: quote, escaped contents, quote. -/
def jsonString (s : List Nat) : List Nat :=
  0x22 :: (s.flatMap escJsonChar ++ [0x22])

/-- Decimal digit characters of a natural number (fuelled recursion). -/
def natDigitsAux : Nat → Nat → List Nat
  | 0, _ => []
  | fuel + 1, n =>
    if n < 10 then [0x30 + n]
    else natDigitsAux fuel (n / 10) ++ [0x30 + n % 10]

/-- Decimal ASCII representation of a natural number. -/
def natDigits (n : Nat) : List Nat := natDigitsAux (n + 1) n

/-- A JSON object member: quoted key, colon, serialized value. -/
def jsonMember (key : List Nat) (value : List Nat) : List Nat :=
  jsonString key ++ (0x3A :: value)

/-- Comma-separated concatenation of serialized pieces. -/
def jsonCommaSep : List (List Nat) → List Nat
  | [] => []
  | [x] => x
  | x :: y :: ys => x ++ (0x2C :: jsonCommaSep (y :: ys))

/-- JSON array of serialized elements. -/
def jsonArray (xs : List (List Nat)) : List Nat :=
  0x5B :: (jsonCommaSep xs ++ [0x5D])

/-- JSON object from serialized members. -/
def jsonObject (members : List (List Nat)) : List Nat :=
  0x7B :: (jsonCommaSep members ++ [0x7D])

/-! ## The stream prelude

`finalizeAndPostStream` (src/unnamed/part_000) builds the prelude object with
insertion order statusCode, cookies, headers; `createHttpResponseStream`
serializes exactly that object. -/

/-- The prelude prepended to a streamed response body. -/
structure Prelude' where
  statusCode : Nat
  cookies : List (List Nat)
  headers : List (List Nat × List Nat)
  deriving DecidableEq

/-- JSON.stringify of the prelude object (key insertion order of the object
built in finalizeAndPostStream: statusCode, cookies, headers). -/
def preludeJson (p : Prelude') : List Nat :=
  jsonObject
    [ jsonMember (strB "statusCode") (natDigits p.statusCode),
      jsonMember (strB "cookies") (jsonArray (p.cookies.map jsonString)),
      jsonMember (strB "headers")
        (jsonObject (p.headers.map (fun kv => jsonMember kv.1 (jsonString kv.2)))) ]

/-! ## The streaming wire framer (createHttpResponseStream)

The TransformStream enqueues the serialized prelude and an 8-byte zero
delimiter on start, then passes every body chunk through unchanged.  The
emitted byte stream is the flattening of the enqueued chunks. -/

/-- The sequence of chunks the framer's TransformStream enqueues. -/
def framerChunks (p : Prelude') (body : List (List Nat)) : List (List Nat) :=
  preludeJson p :: List.replicate 8 0 :: body

/-- The byte stream emitted by createHttpResponseStream. -/
def createHttpResponseStreamBytes (p : Prelude') (body : List (List Nat)) : List Nat :=
  (framerChunks p body).flatten

/-- Decoder: split the emitted stream at the first run of eight zero bytes,
returning the bytes before the run and the bytes after it. -/
def splitFrame : List Nat → Option (List Nat × List Nat)
  | [] => none
  | b :: rest =>
    if (b :: rest).take 8 = List.replicate 8 0 then
      some ([], (b :: rest).drop 8)
    else
      match splitFrame rest with
      | some (pre, body) => some (b :: pre, body)
      | none => none

/-! ### Zero-freeness of serialized JSON -/

theorem hexDigit_pos (n : Nat) : 0 < hexDigit n := by
  unfold hexDigit; split <;> omega

theorem escJsonChar_pos (c : Nat) : ∀ b ∈ escJsonChar c, 0 < b := by
  unfold escJsonChar
  repeat' split
  · decide
  · decide
  · decide
  · decide
  · decide
  · decide
  · decide
  · intro b hb
    simp only [List.mem_cons, List.not_mem_nil, or_false] at hb
    rcases hb with rfl | rfl | rfl | rfl | rfl | rfl
    · omega
    · omega
    · omega
    · omega
    · exact hexDigit_pos _
    · exact hexDigit_pos _
  · intro b hb
    simp only [List.mem_singleton] at hb
    subst hb
    omega

theorem jsonString_pos (s : List Nat) : ∀ b ∈ jsonString s, 0 < b := by
  intro b hb
  unfold jsonString at hb
  simp only [List.mem_cons, List.mem_append, List.mem_flatMap,
    List.mem_singleton, List.not_mem_nil, or_false] at hb
  rcases hb with h | ⟨c, _, hc⟩ | h
  · omega
  · exact escJsonChar_pos c b hc
  · omega

theorem natDigitsAux_pos (fuel n : Nat) : ∀ b ∈ natDigitsAux fuel n, 0 < b := by
  induction fuel generalizing n with
  | zero => intro b hb; simp [natDigitsAux] at hb
  | succ fuel ih =>
    intro b hb
    unfold natDigitsAux at hb
    split at hb
    · simp only [List.mem_singleton] at hb; omega
    · simp only [List.mem_append, List.mem_singleton] at hb
      rcases hb with h | h
      · exact ih (n / 10) b h
      · omega

theorem natDigits_pos (n : Nat) : ∀ b ∈ natDigits n, 0 < b :=
  natDigitsAux_pos (n + 1) n

theorem jsonCommaSep_pos (xs : List (List Nat))
    (h : ∀ x ∈ xs, ∀ b ∈ x, 0 < b) : ∀ b ∈ jsonCommaSep xs, 0 < b := by
  induction xs with
  | nil => intro b hb; simp [jsonCommaSep] at hb
  | cons x xs ih =>
    intro b hb
    cases xs with
    | nil =>
      simp only [jsonCommaSep] at hb
      exact h x (List.mem_cons_self x []) b hb
    | cons y ys =>
      simp only [jsonCommaSep, List.mem_append, List.mem_cons] at hb
      rcases hb with hx | hc | hrest
      · exact h x (by simp) b hx
      · omega
      · exact ih (fun z hz => h z (List.mem_cons_of_mem x hz)) b hrest

theorem jsonArray_pos (xs : List (List Nat))
    (h : ∀ x ∈ xs, ∀ b ∈ x, 0 < b) : ∀ b ∈ jsonArray xs, 0 < b := by
  intro b hb
  simp only [jsonArray, List.mem_cons, List.mem_append,
    List.mem_singleton, List.not_mem_nil, or_false] at hb
  rcases hb with h0 | hs | h1
  · omega
  · exact jsonCommaSep_pos xs h b hs
  · omega

theorem jsonObject_pos (xs : List (List Nat))
    (h : ∀ x ∈ xs, ∀ b ∈ x, 0 < b) : ∀ b ∈ jsonObject xs, 0 < b := by
  intro b hb
  simp only [jsonObject, List.mem_cons, List.mem_append,
    List.mem_singleton, List.not_mem_nil, or_false] at hb
  rcases hb with h0 | hs | h1
  · omega
  · exact jsonCommaSep_pos xs h b hs
  · omega

theorem jsonMember_pos (k v : List Nat)
    (hv : ∀ b ∈ v, 0 < b) : ∀ b ∈ jsonMember k v, 0 < b := by
  intro b hb
  simp only [jsonMember, List.mem_append, List.mem_cons] at hb
  rcases hb with hk | h0 | hval
  · exact jsonString_pos k b hk
  · omega
  · exact hv b hval

/-- Every byte of the serialized prelude is nonzero: JSON.stringify escapes
all control characters, so no raw zero byte can appear. -/
theorem preludeJson_pos (p : Prelude') : ∀ b ∈ preludeJson p, 0 < b := by
  apply jsonObject_pos
  intro x hx
  simp only [List.mem_cons, List.not_mem_nil, or_false] at hx
  rcases hx with rfl | rfl | rfl
  · exact jsonMember_pos _ _ (natDigits_pos _)
  · apply jsonMember_pos
    apply jsonArray_pos
    intro y hy
    simp only [List.mem_map] at hy
    obtain ⟨c, _, rfl⟩ := hy
    exact jsonString_pos c
  · apply jsonMember_pos
    apply jsonObject_pos
    intro y hy
    simp only [List.mem_map] at hy
    obtain ⟨kv, _, rfl⟩ := hy
    exact jsonMember_pos _ _ (jsonString_pos _)

theorem splitFrame_cons (b : Nat) (rest : List Nat) :
    splitFrame (b :: rest) =
      if (b :: rest).take 8 = List.replicate 8 0 then
        some ([], (b :: rest).drop 8)
      else
        match splitFrame rest with
        | some (pre, body) => some (b :: pre, body)
        | none => none := rfl

/-- Splitting at the first 8-zero run inverts the framing, for any prefix
that contains no zero byte. -/
theorem splitFrame_append (js body : List Nat) (h : ∀ b ∈ js, 0 < b) :
    splitFrame (js ++ (List.replicate 8 0 ++ body)) = some (js, body) := by
  induction js with
  | nil =>
    have h08 : List.replicate 8 (0 : Nat) ++ body =
        0 :: (List.replicate 7 0 ++ body) := by
      simp [List.replicate_succ]
    simp only [List.nil_append]
    rw [h08, splitFrame_cons, ← h08,
      List.take_left' (by simp), List.drop_left' (by simp)]
    simp
  | cons b js ih =>
    have hb : 0 < b := h b (List.mem_cons_self b js)
    have hneg :
        ¬ ((b :: (js ++ (List.replicate 8 0 ++ body))).take 8 =
            List.replicate 8 0) := by
      intro hcontra
      have h1 : (b :: (js ++ (List.replicate 8 0 ++ body))).take 8 =
          b :: (js ++ (List.replicate 8 0 ++ body)).take 7 := rfl
      have h2 : List.replicate 8 (0 : Nat) = 0 :: List.replicate 7 0 := by
        simp [List.replicate_succ]
      rw [h1, h2] at hcontra
      have := List.head_eq_of_cons_eq hcontra
      omega
    simp only [List.cons_append]
    rw [splitFrame_cons, if_neg hneg,
      ih (fun x hx => h x (List.mem_cons_of_mem b hx))]

end Bunric

namespace Bunric

/-- C2: for every prelude P and body chunks c1, c2 written to the underlying
stream, createHttpResponseStream emits exactly JSON(P), then eight zero
bytes, then c1 and c2 in order; and splitting the emitted stream at the
first run of eight zero bytes recovers the serialized prelude and the
concatenated body (the JSON prefix is zero-free, so the first 8-zero run is
the delimiter). -/
theorem claim_C2_streaming_framing (p : Prelude') (c1 c2 : List Nat) :
    createHttpResponseStreamBytes p [c1, c2] =
      preludeJson p ++ (List.replicate 8 0 ++ (c1 ++ c2))
    ∧ splitFrame (createHttpResponseStreamBytes p [c1, c2]) =
      some (preludeJson p, c1 ++ c2) := by
  have hemit : createHttpResponseStreamBytes p [c1, c2] =
      preludeJson p ++ (List.replicate 8 0 ++ (c1 ++ c2)) := by
    simp [createHttpResponseStreamBytes, framerChunks]
  refine ⟨hemit, ?_⟩
  rw [hemit]
  exact splitFrame_append _ _ (preludeJson_pos p)

/-! ## Error taxonomy and wire conversion (src/src/pkg/Errors.ts)

toRapidResponse distinguishes three shapes of incoming value:
an Error-like object (native error, or an object with truthy string
name/message/stack), any other value (reported via typeof and String(v)),
and a hostile object whose property accessors throw (caught by the
surrounding try, producing the fixed fallback response). -/

/-- Model of a JavaScript value handed to the error-to-wire conversion. -/
inductive JsVal where
  /-- An Error-like object with string name, message and stack. -/
  | errObj (name message stack : List Nat)
  /-- An object whose property accessors throw (hostile error object). -/
  | hostile
  /-- Any non-Error value, recorded by its typeof string and its
  String(v) conversion. -/
  | other (typeofName strValue : List Nat)
  deriving DecidableEq

/-- The wire shape of a reported error. -/
structure RapidErrorResponse where
  errorType : List Nat
  errorMessage : List Nat
  trace : Option (List (List Nat))
  deriving DecidableEq

/-- Model of the regex replace of every 0x7F with the literal text %7F. -/
def escape7F (s : List Nat) : List Nat :=
  s.flatMap (fun b => if b = 0x7F then [0x25, 0x37, 0x46] else [b])

/-- Model of String.prototype.split on the newline character: the empty
string yields one empty line, as in JavaScript. -/
def splitLines (s : List Nat) : List (List Nat) :=
  s.foldr
    (fun b acc =>
      if b = 0x0A then [] :: acc
      else
        match acc with
        | x :: xs => (b :: x) :: xs
        | [] => [[b]])
    [[]]

/-- JS string disjunction a || b, where the empty string is falsy. -/
def jsOrString (a b : List Nat) : List Nat := if a = [] then b else a

/-- Model of Errors.toRapidResponse. -/
def toRapidResponse : JsVal → RapidErrorResponse
  | .errObj name message stack =>
    { errorType := jsOrString (escape7F name) (strB "Error")
      errorMessage := jsOrString (escape7F message) (strB "")
      trace := some (splitLines (escape7F stack)) }
  | .other typeofName strValue =>
    { errorType := typeofName
      errorMessage := strValue
      trace := some [] }
  | .hostile =>
    { errorType := strB "handled"
      errorMessage := strB "callback called with Error argument, but there was a problem while retrieving one or more of its message, name, and stack"
      trace := none }

theorem splitLines_cons (a : Nat) (s : List Nat) :
    splitLines (a :: s) =
      if a = 0x0A then [] :: splitLines s
      else
        match splitLines s with
        | x :: xs => (a :: x) :: xs
        | [] => [[a]] := rfl

/-- Every byte of every line produced by splitLines comes from the input. -/
theorem splitLines_mem (s : List Nat) :
    ∀ line ∈ splitLines s, ∀ b ∈ line, b ∈ s := by
  induction s with
  | nil =>
    intro line hl b hb
    simp only [splitLines, List.foldr_nil, List.mem_singleton] at hl
    subst hl
    simp at hb
  | cons a s ih =>
    intro line hl b hb
    rw [splitLines_cons] at hl
    by_cases ha : a = 0x0A
    · rw [if_pos ha] at hl
      rcases List.mem_cons.mp hl with rfl | hl'
      · simp at hb
      · exact List.mem_cons_of_mem a (ih line hl' b hb)
    · rw [if_neg ha] at hl
      rcases hsp : splitLines s with _ | ⟨x, xs⟩
      · rw [hsp] at hl
        simp only [List.mem_singleton] at hl
        subst hl
        simp only [List.mem_singleton] at hb
        rw [hb]
        exact List.mem_cons_self a s
      · rw [hsp] at hl
        rcases List.mem_cons.mp hl with hline | hl'
        · subst hline
          rcases List.mem_cons.mp hb with hba | hb'
          · rw [hba]; exact List.mem_cons_self a s
          · have hx : b ∈ s :=
              ih x (by rw [hsp]; exact List.mem_cons_self x xs) b hb'
            exact List.mem_cons_of_mem a hx
        · have hx : b ∈ s :=
            ih line (by rw [hsp]; exact List.mem_cons_of_mem x hl') b hb
          exact List.mem_cons_of_mem a hx

/-- The output of the %7F replacement never contains a raw 0x7F byte. -/
theorem escape7F_ne (s : List Nat) : ∀ b ∈ escape7F s, b ≠ 0x7F := by
  intro b hb
  simp only [escape7F, List.mem_flatMap] at hb
  obtain ⟨a, _, hba⟩ := hb
  split at hba
  · simp only [List.mem_cons, List.mem_singleton, List.not_mem_nil,
      or_false] at hba
    rcases hba with rfl | rfl | rfl <;> omega
  · rename_i ha
    simp only [List.mem_singleton] at hba
    subst hba
    exact ha

end Bunric

namespace Bunric

/-- C8 counterexample: toRapidResponse applied to a plain string value
(not an Error-like object) containing the control character 0x7F leaves it
unescaped in errorMessage, because the escaping replace is applied only on
the Error-like branch. -/
theorem claim_C8_counterexample :
    (toRapidResponse (JsVal.other (strB "string") [0x7F])).errorMessage
      = [0x7F] := rfl

/-- C8 (amended): for every Error-like value, every occurrence of 0x7F in
the resulting errorType, errorMessage and trace is escaped to %7F (so no
raw 0x7F remains), and the hostile-object fallback response is likewise
0x7F-free; a value that is not Error-like has its String(v) conversion
transmitted unescaped in errorMessage. -/
theorem claim_C8_escape_7F (name message stack : List Nat) :
    ((0x7F : Nat) ∉ (toRapidResponse (JsVal.errObj name message stack)).errorType
      ∧ (0x7F : Nat) ∉ (toRapidResponse (JsVal.errObj name message stack)).errorMessage
      ∧ ∀ line ∈ ((toRapidResponse (JsVal.errObj name message stack)).trace.getD []),
          (0x7F : Nat) ∉ line)
    ∧ (0x7F : Nat) ∉ (toRapidResponse JsVal.hostile).errorType
    ∧ (0x7F : Nat) ∉ (toRapidResponse JsVal.hostile).errorMessage := by
  refine ⟨⟨?_, ?_, ?_⟩, ?_, ?_⟩
  · show (0x7F : Nat) ∉ jsOrString (escape7F name) (strB "Error")
    unfold jsOrString
    split
    · decide
    · intro hmem
      exact escape7F_ne name 0x7F hmem rfl
  · show (0x7F : Nat) ∉ jsOrString (escape7F message) (strB "")
    unfold jsOrString
    split
    · decide
    · intro hmem
      exact escape7F_ne message 0x7F hmem rfl
  · intro line hline hmem
    have hline' : line ∈ splitLines (escape7F stack) := hline
    have : (0x7F : Nat) ∈ escape7F stack :=
      splitLines_mem (escape7F stack) line hline' 0x7F hmem
    exact escape7F_ne stack 0x7F this rfl
  · decide
  · decide

/-! ## The streaming sink AwsWritableStream (src/unnamed/part_008)

State of the writable side of the streaming pair: the terminal flags, the
content-type bookkeeping, and the bytes enqueued so far onto the readable
side (the sink's observable output). -/

/-- A chunk passed to write/end: a string, a byte sequence (Buffer or
Uint8Array), or any other value (rejected with a TypeError through the
error path). -/
inductive Chunk where
  | str (s : List Nat)
  | bytes (b : List Nat)
  | invalid (typeofName : List Nat)
  deriving DecidableEq

/-- Mutable state of an AwsWritableStream plus the bytes it has enqueued. -/
structure WritableState where
  ended : Bool
  errored : Bool
  contentTypeSet : Bool
  firstWriteDone : Bool
  contentType : List Nat
  out : List Nat
  deriving DecidableEq

def DEFAULT_CONTENT_TYPE : List Nat := strB "application/octet-stream"

/-- A freshly constructed AwsWritableStream. -/
def sinkInit : WritableState :=
  { ended := false, errored := false, contentTypeSet := false,
    firstWriteDone := false, contentType := DEFAULT_CONTENT_TYPE, out := [] }

def TRAILER_NAME_ERROR_TYPE : List Nat :=
  strB "Lambda-Runtime-Function-Error-Type"

def TRAILER_NAME_ERROR_BODY : List Nat :=
  strB "Lambda-Runtime-Function-Error-Body"

/-- JSON.stringify of the StreamErrorData payload; an absent stackTrace
field (undefined) is omitted by JSON.stringify. -/
def streamErrorDataJson (r : RapidErrorResponse) : List Nat :=
  jsonObject
    ([ jsonMember (strB "errorType") (jsonString r.errorType),
       jsonMember (strB "errorMessage") (jsonString r.errorMessage) ] ++
      (match r.trace with
       | some t => [jsonMember (strB "stackTrace") (jsonArray (t.map jsonString))]
       | none => []))

/-- The in-band trailer bytes AwsWritableStream.error enqueues: eight zero
bytes, the error-type line, and the error-body line. -/
def trailerBytes (e : JsVal) : List Nat :=
  List.replicate 8 0 ++ TRAILER_NAME_ERROR_TYPE ++
    (0x3A :: (toRapidResponse e).errorType) ++ [0x0A] ++
    TRAILER_NAME_ERROR_BODY ++
    (0x3A :: streamErrorDataJson (toRapidResponse e)) ++ [0x0A]

/-- AwsWritableStream.error: a no-op on a terminal sink; otherwise marks
the sink errored, enqueues the trailer and terminates (ended). -/
def streamError (s : WritableState) (e : JsVal) : WritableState :=
  if s.errored || s.ended then s
  else { s with errored := true, ended := true, out := s.out ++ trailerBytes e }

/-- The TypeError built for a chunk of invalid type.  The stack string of a
freshly constructed TypeError is opaque; it is modelled by its type name. -/
def mkChunkTypeError (typeofName : List Nat) : JsVal :=
  JsVal.errObj (strB "TypeError")
    (strB "The \"chunk\" argument must be of type string or an instance of Buffer or Uint8Array. Received an instance of " ++ typeofName)
    (strB "TypeError")

/-- AwsWritableStream.write: returns false on a terminal sink without
mutating it; encodes and enqueues a string or byte chunk; routes an invalid
chunk type through the error path, returning false. -/
def writeChunk (s : WritableState) (c : Chunk) : Bool × WritableState :=
  if s.ended || s.errored then (false, s)
  else
    match c with
    | .str t => (true, { s with out := s.out ++ t, firstWriteDone := true })
    | .bytes b => (true, { s with out := s.out ++ b, firstWriteDone := true })
    | .invalid ty => (false, streamError s (mkChunkTypeError ty))

/-- AwsWritableStream.end: a no-op on a terminal sink; otherwise writes the
optional final chunk, then terminates the stream. -/
def endStream (s : WritableState) (c : Option Chunk) : WritableState :=
  if s.ended || s.errored then s
  else
    let s1 := match c with
      | some ch => (writeChunk s ch).2
      | none => s
    if s1.ended || s1.errored then { s1 with errored := true }
    else { s1 with ended := true }

/-- AwsWritableStream.writableFinished. -/
def writableFinished (s : WritableState) : Bool := s.ended || s.errored

inductive StreamingErr where
  | invalidStreamingOperation
  deriving DecidableEq

/-- AwsWritableStream.setContentType: throws InvalidStreamingOperation when
called twice or after the first accepted chunk. -/
def setContentType (s : WritableState) (ct : List Nat) :
    Except StreamingErr WritableState :=
  if s.contentTypeSet then .error .invalidStreamingOperation
  else if s.firstWriteDone then .error .invalidStreamingOperation
  else .ok { s with contentType := ct, contentTypeSet := true }

end Bunric

namespace Bunric

/-- C3: after writing "abc" on a fresh sink, error(e) appends exactly eight
zero bytes, the error-type trailer line and the error-body JSON trailer
line (each newline-terminated, as spelled out by trailerBytes), so the
output equals "abc" followed by the trailer; afterwards the sink is
terminal: every further write returns false without mutating the sink, and
every further error call is a no-op. -/
theorem claim_C3_error_trailer_terminal (e : JsVal) :
    (streamError (writeChunk sinkInit (Chunk.str (strB "abc"))).2 e).out =
      strB "abc" ++ trailerBytes e
    ∧ (∀ c, writeChunk (streamError (writeChunk sinkInit (Chunk.str (strB "abc"))).2 e) c =
        (false, streamError (writeChunk sinkInit (Chunk.str (strB "abc"))).2 e))
    ∧ (∀ e2, streamError (streamError (writeChunk sinkInit (Chunk.str (strB "abc"))).2 e) e2 =
        streamError (writeChunk sinkInit (Chunk.str (strB "abc"))).2 e) :=
  ⟨rfl, fun _ => rfl, fun _ => rfl⟩

/-! ## Content-type resolution for the stream prelude
(finalizeAndPostStream in src/unnamed/part_000) -/

/-- Property lookup on the override headers object (exact-key match, as in
the source's bracket access). -/
def lookupHeader (hs : List (List Nat × List Nat)) (k : List Nat) :
    Option (List Nat) :=
  match hs with
  | [] => none
  | (k', v) :: rest => if k' = k then some v else lookupHeader rest k

/-- JS disjunction a || b where a is a possibly-undefined string and the
empty string is falsy. -/
def jsOrOpt (a : Option (List Nat)) (b : List Nat) : List Nat :=
  match a with
  | some s => if s = [] then b else s
  | none => b

/-- The content-type written into the final prelude:
metadataOverrides?.headers?.['content-type'] ||
metadataOverrides?.headers?.['Content-Type'] ||
handlerWritable.getContentType(). -/
def resolveContentType (moHeaders : Option (List (List Nat × List Nat)))
    (s : WritableState) : List Nat :=
  let hs := moHeaders.getD []
  jsOrOpt (lookupHeader hs (strB "content-type"))
    (jsOrOpt (lookupHeader hs (strB "Content-Type")) s.contentType)

/-- C4: the prelude's content-type equals the explicit override when one is
supplied (under either key casing), otherwise the content type the handler
declared via setContentType, otherwise the default
application/octet-stream; and setting the content type a second time, or
after the first accepted chunk, is rejected with an
InvalidStreamingOperation error. -/
theorem claim_C4_content_type_precedence (hs : List (List Nat × List Nat))
    (t2 t1 : List Nat) (s s' : WritableState) :
    (lookupHeader hs (strB "content-type") = some t2 → t2 ≠ [] →
      resolveContentType (some hs) s = t2)
    ∧ (lookupHeader hs (strB "content-type") = none →
        lookupHeader hs (strB "Content-Type") = some t2 → t2 ≠ [] →
      resolveContentType (some hs) s = t2)
    ∧ (setContentType sinkInit t1 =
        .ok { sinkInit with contentType := t1, contentTypeSet := true })
    ∧ (resolveContentType none
        { sinkInit with contentType := t1, contentTypeSet := true } = t1)
    ∧ (resolveContentType none sinkInit = strB "application/octet-stream")
    ∧ (s'.contentTypeSet = true →
        setContentType s' t1 = .error .invalidStreamingOperation)
    ∧ (s'.firstWriteDone = true →
        setContentType s' t1 = .error .invalidStreamingOperation) := by
  refine ⟨?_, ?_, rfl, rfl, rfl, ?_, ?_⟩
  · intro hlk hne
    simp only [resolveContentType, Option.getD_some, hlk, jsOrOpt]
    rw [if_neg hne]
  · intro hnone hlk hne
    simp only [resolveContentType, Option.getD_some, hnone, hlk, jsOrOpt]
    rw [if_neg hne]
  · intro hset
    unfold setContentType
    rw [if_pos hset]
  · intro hfw
    unfold setContentType
    by_cases hset : s'.contentTypeSet = true
    · rw [if_pos hset]
    · rw [if_neg hset, if_pos hfw]

end Bunric

namespace Bunric

/-! ## Completion / idempotency machinery
(src/src/pkg/CallbackContext.ts with the BeforeExitListener drain hook of
src/unnamed/part_005)

A report posted to the control plane is a postInvocationResponse with an
opaque result value or a postInvocationError; an error value is modelled
by its message string, since a string error is wrapped into an Error with
that message before posting (_rawCallbackContext.postError). -/

inductive Report where
  | result (v : Nat)
  | invocationError (msg : List Nat)
  deriving DecidableEq

/-- The per-invocation completion state: the wrapper's finished flag, the
raw context's isCompleteInvoked flag, the deferral flag, whether the host
is Bun (process.versions.bun truthy), the BeforeExitListener single slot
(some v models a stored deferred complete-with-v closure; the no-op
listener is an empty slot), and the reports posted so far. -/
structure CbState where
  finished : Bool
  isCompleteInvoked : Bool
  waitForEmptyEventLoop : Bool
  isBun : Bool
  listener : Option Nat
  posts : List Report
  deriving DecidableEq

/-- State right after _rawCallbackContext/_wrappedCallbackContext build:
waitForEmptyEventLoop defaults true in the source; kept as a parameter so
both values are covered. -/
def initSt (wfeel isBun : Bool) : CbState :=
  { finished := false, isCompleteInvoked := false,
    waitForEmptyEventLoop := wfeel, isBun := isBun,
    listener := none, posts := [] }

/-- BeforeExitListener.reset: the slot becomes the no-op listener. -/
def belReset (s : CbState) : CbState := { s with listener := none }

/-- BeforeExitListener.set: stores the deferred action, except under Bun
where it deliberately installs the no-op listener instead. -/
def belSet (s : CbState) (v : Nat) : CbState :=
  if s.isBun then { s with listener := none }
  else { s with listener := some v }

/-- postError: posts a postInvocationError report. -/
def postErrorOp (s : CbState) (msg : List Nat) : CbState :=
  { s with posts := s.posts ++ [Report.invocationError msg] }

/-- complete: guarded by isCompleteInvoked, posts the result report. -/
def completeOp (s : CbState) (v : Nat) : CbState :=
  if s.isCompleteInvoked then s
  else { s with isCompleteInvoked := true,
                posts := s.posts ++ [Report.result v] }

/-- The raw two-argument callback: resets the drain hook, posts the error
immediately when err is non-null, otherwise completes immediately when the
deferral flag is false, else registers the deferred completion. -/
def rawCallbackOp (s : CbState) (err : Option (List Nat)) (v : Nat) : CbState :=
  let s1 := belReset s
  match err with
  | some m => postErrorOp s1 m
  | none =>
    if s1.waitForEmptyEventLoop then belSet s1 v
    else completeOp s1 v

/-- done: like the raw callback but never deferred. -/
def doneOp (s : CbState) (err : Option (List Nat)) (v : Nat) : CbState :=
  let s1 := belReset s
  match err with
  | some m => postErrorOp s1 m
  | none => completeOp s1 v

/-- succeed(result) = done(null, result). -/
def succeedOp (s : CbState) (v : Nat) : CbState := doneOp s none v

/-- fail(err): a null or undefined err is replaced by the fixed string
'handled'; the result argument of done is null (modelled 0, unused on the
error path). -/
def failOp (s : CbState) (err : Option (List Nat)) : CbState :=
  match err with
  | none => doneOp s (some (strB "handled")) 0
  | some m => doneOp s (some m) 0

/-- A call to one of the four wrapped entry points. -/
inductive CallEvt where
  | succeed (v : Nat)
  | fail (e : Option (List Nat))
  | done (e : Option (List Nat)) (v : Nat)
  | rawCallback (e : Option (List Nat)) (v : Nat)
  deriving DecidableEq

/-- onlyAllowFirstCall: all four entry points share one finished flag; the
first call sets it and runs the wrapped body, later calls return without
any effect. -/
def stepCall (s : CbState) (c : CallEvt) : CbState :=
  if s.finished then s
  else
    let s1 := { s with finished := true }
    match c with
    | .succeed v => succeedOp s1 v
    | .fail e => failOp s1 e
    | .done e v => doneOp s1 e v
    | .rawCallback e v => rawCallbackOp s1 e v

def runCalls (s : CbState) (cs : List CallEvt) : CbState :=
  cs.foldl stepCall s

/-- The process beforeExit event: BeforeExitListener.invoke runs whatever
is in the slot (the deferred completion closure, or nothing). -/
def fireHook (s : CbState) : CbState :=
  match s.listener with
  | none => s
  | some v => completeOp s v

/-- The single report the winning call produces. -/
def expectedReport : CallEvt → Report
  | .succeed v => Report.result v
  | .fail none => Report.invocationError (strB "handled")
  | .fail (some m) => Report.invocationError m
  | .done none v => Report.result v
  | .done (some m) _ => Report.invocationError m
  | .rawCallback none v => Report.result v
  | .rawCallback (some m) _ => Report.invocationError m

theorem belSet_finished (s : CbState) (v : Nat) :
    (belSet s v).finished = s.finished := by
  unfold belSet; split <;> rfl

theorem completeOp_finished (s : CbState) (v : Nat) :
    (completeOp s v).finished = s.finished := by
  unfold completeOp; split <;> rfl

theorem doneOp_finished (s : CbState) (e : Option (List Nat)) (v : Nat) :
    (doneOp s e v).finished = s.finished := by
  unfold doneOp
  cases e
  · exact completeOp_finished _ _
  · rfl

theorem failOp_finished (s : CbState) (e : Option (List Nat)) :
    (failOp s e).finished = s.finished := by
  unfold failOp
  cases e
  · exact doneOp_finished _ _ _
  · exact doneOp_finished _ _ _

theorem rawCallbackOp_finished (s : CbState) (e : Option (List Nat)) (v : Nat) :
    (rawCallbackOp s e v).finished = s.finished := by
  unfold rawCallbackOp
  cases e
  · dsimp only
    split
    · exact belSet_finished _ _
    · exact completeOp_finished _ _
  · rfl

/-- Every call leaves the shared finished flag set. -/
theorem stepCall_finished (s : CbState) (c : CallEvt) :
    (stepCall s c).finished = true := by
  unfold stepCall
  split
  · assumption
  · cases c with
    | succeed v => exact doneOp_finished _ _ _
    | fail e => exact failOp_finished _ _
    | done e v => exact doneOp_finished _ _ _
    | rawCallback e v => exact rawCallbackOp_finished _ _ _

/-- A call on a finished state is the identity. -/
theorem stepCall_of_finished (s : CbState) (c : CallEvt)
    (h : s.finished = true) : stepCall s c = s := by
  unfold stepCall
  rw [if_pos h]

theorem runCalls_of_finished (cs : List CallEvt) :
    ∀ s : CbState, s.finished = true → runCalls s cs = s := by
  induction cs with
  | nil => intro s _; rfl
  | cons c cs ih =>
    intro s h
    show runCalls (stepCall s c) cs = s
    rw [stepCall_of_finished s c h]
    exact ih s h

end Bunric

namespace Bunric

/-- C1 counterexample: under the Bun host branch (process.versions.bun
truthy, the deployment environment of this runtime), the winning raw
callback with a null error and the default deferral flag registers nothing
(BeforeExitListener.set installs the no-op listener), so no report at all
is issued for the invocation even after the drain hook fires —
contradicting the claim that exactly one report is issued. -/
theorem claim_C1_counterexample :
    (fireHook (runCalls (initSt true true)
      [CallEvt.rawCallback none 0])).posts = [] := rfl

/-- C1 (amended): on a non-Bun host, for every sequence of calls to the
wrapped succeed, fail, done and raw callback entry points, only the first
call has observable effect — the machine state after any sequence equals
the state after its first call alone — and exactly one report
(postResult or postInvocationError), the one determined by the first call,
is issued once the drain hook has fired; under Bun the deferred path
issues no report.  Proved here for the non-Bun host. -/
theorem claim_C1_exactly_once (c : CallEvt) (rest : List CallEvt) (wfeel : Bool) :
    runCalls (initSt wfeel false) (c :: rest) = runCalls (initSt wfeel false) [c]
    ∧ (fireHook (runCalls (initSt wfeel false) [c])).posts = [expectedReport c] := by
  refine ⟨?_, ?_⟩
  · have hf := stepCall_finished (initSt wfeel false) c
    show runCalls (stepCall (initSt wfeel false) c) rest =
      runCalls (initSt wfeel false) [c]
    rw [runCalls_of_finished rest _ hf]
    rfl
  · cases c with
    | succeed v => cases wfeel <;> rfl
    | fail e => cases e <;> cases wfeel <;> rfl
    | done e v => cases e <;> cases wfeel <;> rfl
    | rawCallback e v => cases e <;> cases wfeel <;> rfl

/-- C5 counterexample: under the Bun host branch, the winning raw callback
with the deferral flag set does not register itself with the drain hook
(the slot holds the no-op listener) and the report is never performed when
the hook fires — contradicting the claim for every buffered invocation. -/
theorem claim_C5_counterexample :
    (stepCall (initSt true true) (CallEvt.rawCallback none 5)).listener = none
    ∧ (fireHook (stepCall (initSt true true)
        (CallEvt.rawCallback none 5))).posts = [] :=
  ⟨rfl, rfl⟩

/-- C5 (amended): on a non-Bun host, when the deferral flag is true at the
winning raw-callback completion, the completion registers itself with the
single drain-hook slot and returns immediately without posting; a new
registration replaces any previously registered one; and the postResult
report is performed when the hook fires.  Under Bun the registration is
deliberately disabled. -/
theorem claim_C5_deferred_completion (v w : Nat) (wfeel : Bool) :
    (stepCall (initSt true false) (CallEvt.rawCallback none v)).posts = []
    ∧ (stepCall (initSt true false) (CallEvt.rawCallback none v)).listener = some v
    ∧ (fireHook (stepCall (initSt true false)
        (CallEvt.rawCallback none v))).posts = [Report.result v]
    ∧ (belSet (belSet (initSt wfeel false) w) v).listener = some v :=
  ⟨rfl, rfl, rfl, rfl⟩

/-- C9: calling fail with a null or undefined error does not complete as a
success: it becomes an error completion with the fixed message 'handled',
reported via postInvocationError and never via postResult. -/
theorem claim_C9_fail_null (wfeel isBun : Bool) :
    (stepCall (initSt wfeel isBun) (CallEvt.fail none)).posts
      = [Report.invocationError (strB "handled")] := rfl

end Bunric

namespace Bunric

/-! ## Fatal error callbacks (Runtime._setErrorCallbacks in
src/unnamed/part_006, with RAPIDClient.postInvocationError of
src/src/pkg/RAPIDClient.ts)

RAPIDClient.postInvocationError awaits the HTTP post and then invokes the
completion callback; when the post throws, it catches the error and still
invokes the callback (it only rethrows when no callback was given).  The
error callbacks installed per invocation pass a callback that exits the
process, so the exit happens whether or not the report succeeded. -/

inductive RtEvent where
  | postedInvocationError
  | postInvocationErrorFailed
  | exitProcess (code : Nat)
  deriving DecidableEq

/-- RAPIDClient.postInvocationError: the HTTP attempt (successful or
failed) followed by the invocation of the completion callback. -/
def rapidPostInvocationError (httpOk : Bool) (callback : List RtEvent) :
    List RtEvent :=
  if httpOk then RtEvent.postedInvocationError :: callback
  else RtEvent.postInvocationErrorFailed :: callback

/-- The uncaughtException callback installed by _setErrorCallbacks: report
via postInvocationError with a callback exiting with code 129. -/
def uncaughtExceptionFlow (httpOk : Bool) : List RtEvent :=
  rapidPostInvocationError httpOk [RtEvent.exitProcess 129]

/-- The unhandledRejection callback installed by _setErrorCallbacks: report
via postInvocationError with a callback exiting with code 128. -/
def unhandledRejectionFlow (httpOk : Bool) : List RtEvent :=
  rapidPostInvocationError httpOk [RtEvent.exitProcess 128]

/-- C6: with an invocation id active, an uncaught top-level exception is
reported via postInvocationError and the process then exits with code 129;
an unhandled rejection is likewise reported and the process exits with
code 128; and when the reporting call itself fails, the process still
exits with the same respective code. -/
theorem claim_C6_fatal_exit_codes :
    uncaughtExceptionFlow true =
      [RtEvent.postedInvocationError, RtEvent.exitProcess 129]
    ∧ uncaughtExceptionFlow false =
      [RtEvent.postInvocationErrorFailed, RtEvent.exitProcess 129]
    ∧ unhandledRejectionFlow true =
      [RtEvent.postedInvocationError, RtEvent.exitProcess 128]
    ∧ unhandledRejectionFlow false =
      [RtEvent.postInvocationErrorFailed, RtEvent.exitProcess 128] :=
  ⟨rfl, rfl, rfl, rfl⟩

/-! ## The streaming dispatch orchestrator
(Runtime.handleOnceStreaming in src/unnamed/part_006, finalizeAndPostStream
in src/unnamed/part_000) -/

/-- One sink operation performed by the streaming handler. -/
inductive SinkOp where
  | write (c : Chunk)
  | endOp (c : Option Chunk)
  | errorOp (e : JsVal)
  deriving DecidableEq

def applySinkOp (s : WritableState) : SinkOp → WritableState
  | .write c => (writeChunk s c).2
  | .endOp c => endStream s c
  | .errorOp e => streamError s e

def runSinkOps (s : WritableState) (ops : List SinkOp) : WritableState :=
  ops.foldl applySinkOp s

/-- What the handler's returned value did: not an awaitable at all, an
awaitable that resolved, or one that rejected with e. -/
inductive HandlerOutcome where
  | notPromise
  | resolved
  | rejected (e : JsVal)
  deriving DecidableEq

/-- new Error(msg): the stack string of a fresh Error is opaque and
modelled by the error name. -/
def mkError (msg : String) : JsVal :=
  JsVal.errObj (strB "Error") (strB msg) (strB "Error")

/-- The prelude finalizeAndPostStream builds when called with no metadata
overrides, as handleOnceStreaming does. -/
def finalPreludeNoOverrides (s : WritableState) : Prelude' :=
  { statusCode := 200, cookies := [],
    headers := [(strB "content-type", resolveContentType none s)] }

/-- The body finalizeAndPostStream posts: the sink's enqueued bytes framed
by createHttpResponseStream under the final prelude. -/
def finalizeAndPostBody (s : WritableState) : List Nat :=
  createHttpResponseStreamBytes (finalPreludeNoOverrides s) [s.out]

/-- The observable outcome of one streaming dispatch: the sink's final
state and the bodies posted to the control plane. -/
structure StreamingRun where
  sinkFinal : WritableState
  posted : List (List Nat)
  deriving DecidableEq

/-- Runtime.handleOnceStreaming after invoking the handler: first the
handler's own sink operations; then a non-promise return or a rejection is
signalled on the sink via its error path; then, if the sink was never
ended, an error is forced onto it; finally the sink body is finalized and
posted exactly once. -/
def handleOnceStreamingModel (ops : List SinkOp) (outcome : HandlerOutcome) :
    StreamingRun :=
  let s0 := runSinkOps sinkInit ops
  let s1 := match outcome with
    | .notPromise =>
      streamError s0 (mkError "Streaming handler must return a Promise.")
    | .rejected e => streamError s0 e
    | .resolved => s0
  let s2 :=
    if writableFinished s1 then s1
    else streamError s1 (mkError "Response stream was not explicitly ended by the handler (or an error was not properly propagated to end the stream).")
  { sinkFinal := s2, posted := [finalizeAndPostBody s2] }

theorem streamError_errored_of (s : WritableState) (e : JsVal)
    (h : writableFinished s = false) : (streamError s e).errored = true := by
  unfold writableFinished at h
  simp only [Bool.or_eq_false_iff] at h
  unfold streamError
  rw [if_neg (by simp [h.1, h.2])]

theorem writableFinished_streamError (s : WritableState) (e : JsVal) :
    writableFinished (streamError s e) = true := by
  unfold streamError
  split
  · rename_i h
    unfold writableFinished
    rw [Bool.or_comm]
    exact h
  · rfl

end Bunric

namespace Bunric

/-- C7 counterexample: a handler that synchronously ends the stream and
then returns a non-awaitable.  The orchestrator's error signal is a no-op
on the already-ended sink, so no error is written onto the sink (it is not
errored and its output carries no trailer), contradicting the claim that a
non-awaitable return always gets an error written onto the sink. -/
theorem claim_C7_counterexample :
    (handleOnceStreamingModel [SinkOp.endOp none]
      HandlerOutcome.notPromise).sinkFinal.errored = false
    ∧ (handleOnceStreamingModel [SinkOp.endOp none]
        HandlerOutcome.notPromise).sinkFinal.out = [] :=
  ⟨rfl, rfl⟩

/-- C7 (amended): for every streaming invocation, a non-awaitable handler
return or a rejected awaitable is signalled as an error on the sink, which
records it (errored, trailer appended) whenever the sink is not already
terminal — on an already-ended sink the signal is a no-op; after settling,
the sink is always terminal (an error is forced when it was never ended);
and the orchestrator finalizes and posts the framed sink body exactly
once in all cases. -/
theorem claim_C7_streaming_error_routing (ops : List SinkOp)
    (outcome : HandlerOutcome) :
    (outcome = HandlerOutcome.notPromise →
      writableFinished (runSinkOps sinkInit ops) = false →
      (handleOnceStreamingModel ops outcome).sinkFinal.errored = true)
    ∧ (∀ e, outcome = HandlerOutcome.rejected e →
        writableFinished (runSinkOps sinkInit ops) = false →
        (handleOnceStreamingModel ops outcome).sinkFinal.errored = true)
    ∧ writableFinished (handleOnceStreamingModel ops outcome).sinkFinal = true
    ∧ (handleOnceStreamingModel ops outcome).posted =
        [finalizeAndPostBody (handleOnceStreamingModel ops outcome).sinkFinal] := by
  refine ⟨?_, ?_, ?_, rfl⟩
  · intro h1 h2
    subst h1
    simp only [handleOnceStreamingModel]
    rw [if_pos (writableFinished_streamError _ _)]
    exact streamError_errored_of _ _ h2
  · intro e h1 h2
    subst h1
    simp only [handleOnceStreamingModel]
    rw [if_pos (writableFinished_streamError _ _)]
    exact streamError_errored_of _ _ h2
  · simp only [handleOnceStreamingModel]
    split
    · assumption
    · exact writableFinished_streamError _ _

/-- Witness for C7: a handler performing no sink operation that returns a
non-awaitable gets the error recorded on the sink, the sink ends terminal,
and exactly one framed body is posted; a rejecting handler likewise. -/
theorem claim_C7_streaming_error_routing_witness :
    (handleOnceStreamingModel [] HandlerOutcome.notPromise).sinkFinal.errored = true
    ∧ writableFinished
        (handleOnceStreamingModel [] HandlerOutcome.notPromise).sinkFinal = true
    ∧ (handleOnceStreamingModel [] HandlerOutcome.notPromise).posted =
        [finalizeAndPostBody
          (handleOnceStreamingModel [] HandlerOutcome.notPromise).sinkFinal]
    ∧ (handleOnceStreamingModel []
        (HandlerOutcome.rejected JsVal.hostile)).sinkFinal.errored = true :=
  ⟨(claim_C7_streaming_error_routing [] HandlerOutcome.notPromise).1 rfl rfl,
   (claim_C7_streaming_error_routing [] HandlerOutcome.notPromise).2.2.1,
   (claim_C7_streaming_error_routing [] HandlerOutcome.notPromise).2.2.2,
   (claim_C7_streaming_error_routing []
     (HandlerOutcome.rejected JsVal.hostile)).2.1 JsVal.hostile rfl rfl⟩

/-! ## StreamingContext.createStream (src/unnamed/part_000) -/

/-- Per-invocation streaming context state: whether the stream pair has
already been set up. -/
structure StreamingCtxState where
  isStreamSetupDone : Bool
  deriving DecidableEq

/-- StreamingContext.createStream: throws InvalidStreamingOperation when
the stream pair was already set up (before any mutation, so the context
and the previously created stream objects are untouched); otherwise
creates the fresh writable sink and marks the context set up. -/
def createStream (c : StreamingCtxState) :
    Except StreamingErr WritableState × StreamingCtxState :=
  if c.isStreamSetupDone then (.error .invalidStreamingOperation, c)
  else (.ok sinkInit, { c with isStreamSetupDone := true })

/-- C10: the first createStream call succeeds, returning the fresh stream
objects and marking the context; every subsequent call on the same context
throws InvalidStreamingOperation and leaves the state (and hence the
already-created stream objects) unchanged. -/
theorem claim_C10_create_stream_once (c : StreamingCtxState) :
    createStream { isStreamSetupDone := false } =
      (.ok sinkInit, { isStreamSetupDone := true })
    ∧ (c.isStreamSetupDone = true →
        createStream c = (.error .invalidStreamingOperation, c)) := by
  refine ⟨rfl, ?_⟩
  intro h
  unfold createStream
  rw [if_pos h]

/-- Witness for C10: a second call on the context produced by the first
call errors and returns the context unchanged. -/
theorem claim_C10_create_stream_once_witness :
    createStream { isStreamSetupDone := true } =
      (Except.error StreamingErr.invalidStreamingOperation,
        { isStreamSetupDone := true }) :=
  (claim_C10_create_stream_once { isStreamSetupDone := true }).2 rfl

/-- Witness for C4: an explicit lowercase override wins, a capitalized
override wins when the lowercase key is absent, and a second set or a set
after the first accepted chunk is rejected. -/
theorem claim_C4_content_type_precedence_witness :
    resolveContentType (some [(strB "content-type", strB "text/html")]) sinkInit
      = strB "text/html"
    ∧ resolveContentType (some [(strB "Content-Type", strB "text/css")]) sinkInit
      = strB "text/css"
    ∧ setContentType { sinkInit with contentTypeSet := true } (strB "text/plain")
      = .error .invalidStreamingOperation
    ∧ setContentType { sinkInit with firstWriteDone := true } (strB "text/plain")
      = .error .invalidStreamingOperation :=
  ⟨(claim_C4_content_type_precedence [(strB "content-type", strB "text/html")]
      (strB "text/html") (strB "text/plain") sinkInit sinkInit).1
      rfl (by decide),
   (claim_C4_content_type_precedence [(strB "Content-Type", strB "text/css")]
      (strB "text/css") (strB "text/plain") sinkInit sinkInit).2.1
      rfl rfl (by decide),
   (claim_C4_content_type_precedence [] (strB "a") (strB "text/plain") sinkInit
      { sinkInit with contentTypeSet := true }).2.2.2.2.2.1 rfl,
   (claim_C4_content_type_precedence [] (strB "a") (strB "text/plain") sinkInit
      { sinkInit with firstWriteDone := true }).2.2.2.2.2.2 rfl⟩

end Bunric
